import Mathlib

/-!
# Verification of the GdriveSearch-WebUI search service (src/main.py)

A shallow embedding of the search pipeline of `src/main.py`:

* query normalization (`stripQuery`, `querySplit`, `detectQuality`),
* the primary-store candidate loop (`primaryLoop`, `contains`),
* the archive client with its token cache and single auth retry
  (`fetch_tgarchive_files`, `processHits`),
* the availability filter (`check_download`),
* merging and natural sorting (`dictUpdate`, `natsortByName`),
* the request handler (`search`).

External I/O (the Google Drive listing call, the HTTP archive backend, the
download probes) is modelled by oracles recorded in a `SearchEnv`: the
listing result, the archive responses indexed by attempt number, and the
per-file probe outcome.  Python dicts are modelled as association lists
whose insert/update operations preserve the unique-key invariant and dict
ordering semantics.
-/

/-- Character class kept by `re.sub('[^a-zA-Z0-9-_ ]', '', query)`
(src/main.py line 226): ASCII letters, digits, `-`, `_` and space. -/
def allowedChar (c : Char) : Bool :=
  (('a' ≤ c && c ≤ 'z') || ('A' ≤ c && c ≤ 'Z') || ('0' ≤ c && c ≤ '9')
    || c = '-' || c = '_' || c = ' ')

/-- `re.sub('[^a-zA-Z0-9-_ ]', '', query)`: drop every disallowed character. -/
def stripQuery (q : String) : String :=
  String.mk (q.toList.filter allowedChar)

/-- Auxiliary for `querySplit`: split a character list on every single space,
keeping empty pieces, exactly like Python's `re.split(' ', s)`. -/
def splitGo : List Char → List Char → List String
  | [], acc => [String.mk acc.reverse]
  | c :: cs, acc =>
    if c = ' ' then String.mk acc.reverse :: splitGo cs []
    else splitGo cs (c :: acc)

/-- `re.split(' ', query)` (src/main.py line 249).  Note `re.split(' ', '')`
returns `['']`, a one-element list holding the empty string. -/
def querySplit (q : String) : List String :=
  splitGo q.toList []

/-- ASCII lowercase of one character, as Python's `str.lower` acts on the
ASCII range relevant here. -/
def charLower (c : Char) : Char :=
  if 'A' ≤ c && c ≤ 'Z' then Char.ofNat (c.toNat + 32) else c

/-- ASCII `str.lower`. -/
def strLower (s : String) : String :=
  String.mk (s.toList.map charLower)

/-- `fullstr.find(sub) != -1`: `sub` occurs as a contiguous substring of
`fullstr` (the empty string occurs in everything, as Python's `find`). -/
def strContains (fullstr sub : String) : Bool :=
  (List.range (fullstr.toList.length + 1)).any
    (fun i => sub.toList = (fullstr.toList.drop i).take sub.toList.length)

/-- `contains` from src/main.py lines 62-66: every element of `substr`,
lowercased, must occur in `fullstr`. -/
def contains (substr : List String) (fullstr : String) : Bool :=
  substr.all (fun s => strContains fullstr (strLower s))

/-- `QUALITIES` constant (src/main.py line 30). -/
def QUALITIES : List String := ["360", "480", "720", "1080", "1440", "2160"]

/-- Quality detection loop of src/main.py lines 228-232: the first quality
label occurring anywhere in the (already stripped) query, as a substring. -/
def detectQuality (query : String) : Option String :=
  QUALITIES.find? (fun resol => strContains query resol)

/-- The tokens that become `name contains '...'` clauses of the Drive query
(src/main.py lines 250-253): every split token except those containing the
detected quality label as a substring. -/
def gdriveClauses (quality : Option String) (query_list : List String) : List String :=
  query_list.filter (fun text =>
    match quality with
    | none => true
    | some q => !(strContains text q))

/-- A file entry as stored in `resultsMap` / the response `files` mapping
(src/main.py lines 202-208 and 269). -/
structure FileEntry where
  name : String
  size : String
  mimeType : String
  fileUniqueId : Option String
  is_tgapi : Bool
deriving DecidableEq, Repr

/-- Abstraction of the external `humanize.naturalsize` library call; no
claim depends on its exact output string. -/
def naturalsize (n : Nat) : String := toString n

/-- A raw file object returned by the Drive listing call. -/
structure GFile where
  id : String
  name : String
  mimeType : String
  size : Nat
deriving DecidableEq, Repr

/-- Python `dict` insertion on an association list: overwrite in place if the
key exists, else append (dict ordering semantics). -/
def dictInsert : List (String × FileEntry) → String → FileEntry → List (String × FileEntry)
  | [], k, v => [(k, v)]
  | (k', v') :: rest, k, v =>
    if k = k' then (k, v) :: rest else (k', v') :: dictInsert rest k v

/-- Python `dict.update`: insert every pair of `adds` in order. -/
def dictUpdate (m adds : List (String × FileEntry)) : List (String × FileEntry) :=
  adds.foldl (fun acc kv => dictInsert acc kv.1 kv.2) m

/-- Python `dict.pop k`: remove the entry with key `k` (on the unique-key
lists produced by `dictInsert` this is the single entry with that key). -/
def dictPop (m : List (String × FileEntry)) (k : String) : List (String × FileEntry) :=
  m.filter (fun p => p.1 ≠ k)

/-- The result-collection loop of `search` (src/main.py lines 259-270):
walk the listing results, stop once `count` reaches `MAX_RESULTS = 30`,
skip shortcuts and names failing token containment, insert the rest. -/
def primaryLoop (query_list : List String) :
    List GFile → Nat → List (String × FileEntry) → List (String × FileEntry)
  | [], _, m => m
  | f :: rest, count, m =>
    if count ≥ 30 then m
    else if f.mimeType = "application/vnd.google-apps.shortcut"
        || !(contains query_list (strLower f.name)) then
      primaryLoop query_list rest count m
    else
      primaryLoop query_list rest (count + 1)
        (dictInsert m f.id ⟨f.name, naturalsize f.size, f.mimeType, none, false⟩)

/-- The ids for which `check_download` schedules a probe: `filter_files`
(src/main.py lines 50-53) probes exactly the entries with `is_tgapi = False`. -/
def probedIds (m : List (String × FileEntry)) : List String :=
  (m.filter (fun p => !p.2.is_tgapi)).map Prod.fst

/-- The `shared_list` accumulated by the probes (src/main.py lines 39-48):
ids of non-archive entries whose download probe raised an exception.
`probeOk id = true` models a probe that succeeded. -/
def sharedListOf (probeOk : String → Bool) (m : List (String × FileEntry)) : List String :=
  (m.filter (fun p => !p.2.is_tgapi && !probeOk p.1)).map Prod.fst

/-- `check_download` (src/main.py lines 55-60): await all probes, then pop
every id collected in `shared_list`. -/
def check_download (probeOk : String → Bool) (m : List (String × FileEntry)) :
    List (String × FileEntry) :=
  (sharedListOf probeOk m).foldl dictPop m

/-- Parsed metadata of one archive hit's `description` blob
(src/main.py lines 197-207); `id` / `altId` model the `id` / `_id` fields. -/
structure TgMeta where
  id : Option Int
  altId : Option Int
  name : String
  size : Nat
  mimeType : String
  fileUniqueId : String
deriving DecidableEq, Repr

/-- One hit of the archive search response; `description = none` models a
`description` blob on which `json.loads` raises `JSONDecodeError`. -/
structure TgHit where
  description : Option TgMeta
deriving DecidableEq, Repr

/-- The archive search HTTP outcome for one attempt:
a transport exception, an OK response (whose envelope may fail to parse:
`none`), or a non-OK response with an optional `message` field. -/
inductive TgResp where
  | transportError
  | ok (envelope : Option (List TgHit))
  | failure (message : Option String)
deriving DecidableEq, Repr

/-- The entry built from one parsed archive hit (src/main.py lines 202-208). -/
def tgEntry (m : TgMeta) : FileEntry :=
  ⟨m.name, naturalsize m.size, m.mimeType, some m.fileUniqueId, true⟩

/-- The hit loop of `fetch_tgarchive_files` (src/main.py lines 196-208).
A hit with an unparsable `description` raises `JSONDecodeError`, which is
caught at function level: the results accumulated so far are kept and the
remaining hits are abandoned (second component `true`).  A parsed hit
missing both id fields is skipped with `continue`. -/
def processHits : List TgHit → List (String × FileEntry) → List (String × FileEntry) × Bool
  | [], acc => (acc, false)
  | h :: rest, acc =>
    match h.description with
    | none => (acc, true)
    | some m =>
      match (match m.id with | some i => some i | none => m.altId) with
      | none => processHits rest acc
      | some fid => processHits rest (dictInsert acc (toString fid) (tgEntry m))

/-- Outcome of one `fetch_tgarchive_files` call: the result dict, the new
value of the global `TG_ARCHIVE_TOKEN`, and how many search requests the
call issued (counting the retry's). -/
structure TgOut where
  files : List (String × FileEntry)
  token : Option String
  requests : Nat
deriving DecidableEq, Repr

/-- The oracle environment of one `/search` request: the decoded query, the
Drive listing outcome (`none` models an exception raised while loading
credentials or executing the listing call), the probe outcomes, and the
archive configuration/response oracles indexed by attempt number
(`retry_count` is 1 on the first attempt, 2 on the retry). -/
structure SearchEnv where
  rawQuery : String
  primary : Option (List GFile)
  probeOk : String → Bool
  tgConfigured : Bool
  tgTokenFetch : Nat → Option String
  tgResponse : Nat → TgResp

/-- Recursion of `fetch_tgarchive_files` (src/main.py lines 160-221), made
structural on a fuel argument.  The fuel chosen by the wrapper is always
sufficient: a retry happens only under `retry_count ≤ 1`, so the `0` case is
unreachable from `fetch_tgarchive_files`. -/
def fetch_go (env : SearchEnv) (token : Option String) (rc : Nat) : Nat → TgOut
  | 0 => ⟨[], token, 0⟩
  | _fuel + 1 =>
    if env.tgConfigured = false then ⟨[], token, 0⟩
    else
      match (match token with | some t => some t | none => env.tgTokenFetch rc) with
      | none => ⟨[], none, 0⟩
      | some t =>
        match env.tgResponse rc with
        | .transportError => ⟨[], some t, 1⟩
        | .ok none => ⟨[], some t, 1⟩
        | .ok (some hits) => ⟨(processHits hits []).1, some t, 1⟩
        | .failure msg =>
          if msg = some "Unauthorized" then
            if rc ≤ 1 then
              let r := fetch_go env none (rc + 1) _fuel
              ⟨r.files, r.token, r.requests + 1⟩
            else ⟨[], none, 1⟩
          else ⟨[], some t, 1⟩

/-- `fetch_tgarchive_files(query, retry_count)` (src/main.py lines 160-221):
return an empty dict when the search endpoint is unconfigured or no token
can be acquired; otherwise issue the request; on an `Unauthorized` reply
drop the cached token and, when `retry_count ≤ 1`, retry once with
`retry_count + 1`; transport and envelope-parse errors are caught and yield
the dict accumulated so far. -/
def fetch_tgarchive_files (env : SearchEnv) (token : Option String) (rc : Nat) : TgOut :=
  fetch_go env token rc (2 - rc + 1)

/-- The JSON body returned by the `/search` handler: either
`{'status': 'success', 'files': ...}` or the `{'status': 'error', ...}`
envelope produced by the handler's `except` clause. -/
inductive SearchOutcome where
  | success (files : List (String × FileEntry))
  | error
deriving DecidableEq, Repr

/-- Natural-order sort key of a name.  Modelled from the spec: the external
`natsort` library's "numeric-aware lexicographic order" — the name is cut
into maximal digit runs (compared as numbers) and non-digit runs (compared
character-lexicographically).  `natKeyGo` carries the run being accumulated
(digit runs as a value, text runs as reversed characters). -/
def natKeyGo : List Char → Option (Sum Nat (List Char)) → List (Sum Nat (List Char))
  | [], none => []
  | [], some (.inl n) => [.inl n]
  | [], some (.inr txt) => [.inr txt.reverse]
  | c :: cs, none =>
    if c.isDigit then natKeyGo cs (some (.inl (c.toNat - 48)))
    else natKeyGo cs (some (.inr [c]))
  | c :: cs, some (.inl n) =>
    if c.isDigit then natKeyGo cs (some (.inl (n * 10 + (c.toNat - 48))))
    else .inl n :: natKeyGo cs (some (.inr [c]))
  | c :: cs, some (.inr txt) =>
    if c.isDigit then .inr txt.reverse :: natKeyGo cs (some (.inl (c.toNat - 48)))
    else natKeyGo cs (some (.inr (c :: txt)))

/-- Natural sort key of a string. -/
def natKey (s : String) : List (Sum Nat (List Char)) := natKeyGo s.toList none

/-- Lexicographic character-list comparison (code-point order). -/
def charsLe : List Char → List Char → Bool
  | [], _ => true
  | _ :: _, [] => false
  | c :: cs, d :: ds =>
    if c.toNat = d.toNat then charsLe cs ds else decide (c.toNat < d.toNat)

/-- Order on key chunks: numbers compare numerically, text compares
lexicographically, and a number chunk sorts before a text chunk. -/
def chunkLe : Sum Nat (List Char) → Sum Nat (List Char) → Bool
  | .inl m, .inl n => decide (m ≤ n)
  | .inl _, .inr _ => true
  | .inr _, .inl _ => false
  | .inr s, .inr t => charsLe s t

/-- Lexicographic order on chunk lists. -/
def keyLe : List (Sum Nat (List Char)) → List (Sum Nat (List Char)) → Bool
  | [], _ => true
  | _ :: _, [] => false
  | a :: as, b :: bs => if a = b then keyLe as bs else chunkLe a b

/-- The comparison used by `natsorted(resultsMap.items(), key=name)`. -/
def natLe (x y : String × FileEntry) : Bool :=
  keyLe (natKey x.2.name) (natKey y.2.name)

/-- `natLe` as a relation, for the sorting lemmas. -/
def natR (x y : String × FileEntry) : Prop := natLe x y = true

instance : DecidableRel natR :=
  fun x y => inferInstanceAs (Decidable (natLe x y = true))

/-- `dict(natsorted(seq=resultsMap.items(), key=lambda x: x[1].get('name')))`
(src/main.py line 277).  Modelled from the spec: Python's `natsorted` is a
stable sort under the natural-order comparison on the `name` field, and a
stable sort under a total preorder is unique, so it is embedded as the
stable `insertionSort`. -/
def natsortByName (l : List (String × FileEntry)) : List (String × FileEntry) :=
  l.insertionSort natR

/-- The `/search/<query>` handler (src/main.py lines 223-281), after
percent-decoding.  Takes and returns the global `TG_ARCHIVE_TOKEN` state.
Any exception from credential loading or the listing call is modelled by
`env.primary = none` and lands in the `except` branch. -/
def search (env : SearchEnv) (token : Option String) : SearchOutcome × Option String :=
  match env.primary with
  | none => (.error, token)
  | some files =>
    let query := stripQuery env.rawQuery
    let query_list := querySplit query
    let resultsMap := primaryLoop query_list files 0 []
    let (resultsMap2, token') :=
      if resultsMap.length < 10 then
        let r := fetch_tgarchive_files env token 1
        (if r.files.isEmpty then resultsMap else dictUpdate resultsMap r.files, r.token)
      else (resultsMap, token)
    let final := check_download env.probeOk resultsMap2
    (.success (natsortByName final), token')

/-- Number of files in a handler outcome (0 for an error envelope). -/
def outFilesLen : SearchOutcome → Nat
  | .success files => files.length
  | .error => 0

theorem char_toNat_injective {a b : Char} (h : a.toNat = b.toNat) : a = b := by
  have := congrArg Char.ofNat h
  simpa using this

theorem charsLe_total : ∀ s t, charsLe s t || charsLe t s
  | [], _ => by simp [charsLe]
  | _ :: _, [] => by simp [charsLe]
  | c :: cs, d :: ds => by
    by_cases h : c.toNat = d.toNat
    · simpa [charsLe, h] using charsLe_total cs ds
    · simp only [charsLe, if_neg h, if_neg (Ne.symm h)]
      simp only [Bool.or_eq_true, decide_eq_true_eq]
      omega

theorem charsLe_antisymm : ∀ s t, charsLe s t = true → charsLe t s = true → s = t
  | [], [], _, _ => rfl
  | [], _ :: _, _, h => by simp [charsLe] at h
  | _ :: _, [], h, _ => by simp [charsLe] at h
  | c :: cs, d :: ds, h₁, h₂ => by
    by_cases h : c.toNat = d.toNat
    · simp only [charsLe, if_pos h, if_pos h.symm] at h₁ h₂
      have := charsLe_antisymm cs ds h₁ h₂
      rw [char_toNat_injective h, this]
    · simp only [charsLe, if_neg h, if_neg (Ne.symm h), decide_eq_true_eq] at h₁ h₂
      omega

theorem charsLe_trans : ∀ s t u, charsLe s t = true → charsLe t u = true → charsLe s u = true
  | [], _, _, _, _ => rfl
  | _ :: _, [], _, h, _ => by simp [charsLe] at h
  | _ :: _, _ :: _, [], _, h => by simp [charsLe] at h
  | c :: cs, d :: ds, e :: es, h₁, h₂ => by
    by_cases hcd : c.toNat = d.toNat <;> by_cases hde : d.toNat = e.toNat
    · simp only [charsLe, if_pos hcd] at h₁
      simp only [charsLe, if_pos hde] at h₂
      simp only [charsLe, if_pos (hcd.trans hde)]
      exact charsLe_trans cs ds es h₁ h₂
    · simp only [charsLe, if_neg hde, decide_eq_true_eq] at h₂
      have hce : ¬ c.toNat = e.toNat := by omega
      simp only [charsLe, if_neg hce, decide_eq_true_eq]
      omega
    · simp only [charsLe, if_neg hcd, decide_eq_true_eq] at h₁
      have hce : ¬ c.toNat = e.toNat := by omega
      simp only [charsLe, if_neg hce, decide_eq_true_eq]
      omega
    · simp only [charsLe, if_neg hcd, decide_eq_true_eq] at h₁
      simp only [charsLe, if_neg hde, decide_eq_true_eq] at h₂
      by_cases hce : c.toNat = e.toNat
      · omega
      · simp only [charsLe, if_neg hce, decide_eq_true_eq]
        omega

theorem chunkLe_total : ∀ a b, chunkLe a b || chunkLe b a
  | .inl m, .inl n => by
    simp only [chunkLe, Bool.or_eq_true, decide_eq_true_eq]
    omega
  | .inl _, .inr _ => by simp [chunkLe]
  | .inr _, .inl _ => by simp [chunkLe]
  | .inr s, .inr t => charsLe_total s t

theorem chunkLe_antisymm : ∀ a b, chunkLe a b = true → chunkLe b a = true → a = b
  | .inl m, .inl n, h₁, h₂ => by
    simp only [chunkLe, decide_eq_true_eq] at h₁ h₂
    have : m = n := by omega
    rw [this]
  | .inl _, .inr _, _, h => by simp [chunkLe] at h
  | .inr _, .inl _, h, _ => by simp [chunkLe] at h
  | .inr s, .inr t, h₁, h₂ => by rw [charsLe_antisymm s t h₁ h₂]

theorem chunkLe_trans : ∀ a b c, chunkLe a b = true → chunkLe b c = true → chunkLe a c = true
  | .inl _, .inl _, .inl _, h₁, h₂ => by
    simp only [chunkLe, decide_eq_true_eq] at h₁ h₂ ⊢
    omega
  | .inl _, _, .inr _, _, _ => by simp [chunkLe]
  | .inl _, .inr _, .inl _, _, h => by simp [chunkLe] at h
  | .inr _, .inl _, _, h, _ => by simp [chunkLe] at h
  | .inr _, .inr _, .inl _, _, h => by simp [chunkLe] at h
  | .inr s, .inr t, .inr u, h₁, h₂ => charsLe_trans s t u h₁ h₂

theorem keyLe_total : ∀ k l, keyLe k l || keyLe l k
  | [], _ => by simp [keyLe]
  | _ :: _, [] => by simp [keyLe]
  | a :: as, b :: bs => by
    by_cases h : a = b
    · simpa [keyLe, h] using keyLe_total as bs
    · simp only [keyLe, if_neg h, if_neg (Ne.symm h)]
      exact chunkLe_total a b

theorem keyLe_trans : ∀ k l m, keyLe k l = true → keyLe l m = true → keyLe k m = true
  | [], _, _, _, _ => rfl
  | _ :: _, [], _, h, _ => by simp [keyLe] at h
  | _ :: _, _ :: _, [], _, h => by simp [keyLe] at h
  | a :: as, b :: bs, c :: cs, h₁, h₂ => by
    by_cases hab : a = b <;> by_cases hbc : b = c
    · subst hab; subst hbc
      simp only [keyLe, if_pos rfl] at h₁ h₂ ⊢
      exact keyLe_trans as bs cs h₁ h₂
    · subst hab
      simpa [keyLe, hbc] using h₂
    · subst hbc
      simpa [keyLe, hab] using h₁
    · simp only [keyLe, if_neg hab] at h₁
      simp only [keyLe, if_neg hbc] at h₂
      by_cases hac : a = c
      · subst hac
        exact absurd (chunkLe_antisymm a b h₁ h₂) hab
      · simp only [keyLe, if_neg hac]
        exact chunkLe_trans a b c h₁ h₂

instance : IsTotal (String × FileEntry) natR :=
  ⟨fun x y => by
    have := keyLe_total (natKey x.2.name) (natKey y.2.name)
    simp only [Bool.or_eq_true] at this
    exact this.imp (fun h => h) (fun h => h)⟩

instance : IsTrans (String × FileEntry) natR :=
  ⟨fun _ _ _ h₁ h₂ => keyLe_trans _ _ _ h₁ h₂⟩

theorem length_dictInsert_le : ∀ (m : List (String × FileEntry)) k v,
    (dictInsert m k v).length ≤ m.length + 1
  | [], _, _ => by simp [dictInsert]
  | (k', v') :: rest, k, v => by
    by_cases h : k = k'
    · simp [dictInsert, h]
    · simpa [dictInsert, h] using length_dictInsert_le rest k v

theorem length_dictUpdate_le : ∀ (adds m : List (String × FileEntry)),
    (dictUpdate m adds).length ≤ m.length + adds.length
  | [], _ => le_refl _
  | kv :: adds, m => by
    have h₁ := length_dictUpdate_le adds (dictInsert m kv.1 kv.2)
    have h₂ := length_dictInsert_le m kv.1 kv.2
    simp only [dictUpdate, List.foldl_cons, List.length_cons] at h₁ ⊢
    omega

theorem mem_keys_dictInsert : ∀ (m : List (String × FileEntry)) k v a,
    a ∈ (dictInsert m k v).map Prod.fst ↔ a = k ∨ a ∈ m.map Prod.fst
  | [], _, _, _ => by simp [dictInsert]
  | (k', v') :: rest, k, v, a => by
    by_cases h : k = k'
    · subst h
      simp [dictInsert]
    · simp only [dictInsert, if_neg h, List.map_cons, List.mem_cons,
        mem_keys_dictInsert rest k v a]
      tauto

theorem nodupKeys_dictInsert : ∀ (m : List (String × FileEntry)) k v,
    (m.map Prod.fst).Nodup → ((dictInsert m k v).map Prod.fst).Nodup
  | [], _, _, _ => by simp [dictInsert]
  | (k', v') :: rest, k, v, h => by
    simp only [List.map_cons, List.nodup_cons] at h
    by_cases hk : k = k'
    · subst hk
      simpa [dictInsert] using h
    · simp only [dictInsert, if_neg hk, List.map_cons, List.nodup_cons]
      refine ⟨fun hmem => ?_, nodupKeys_dictInsert rest k v h.2⟩
      rcases (mem_keys_dictInsert rest k v k').mp hmem with h' | h'
      · exact hk (h'.symm)
      · exact h.1 h'

theorem nodupKeys_dictUpdate : ∀ (adds m : List (String × FileEntry)),
    (m.map Prod.fst).Nodup → ((dictUpdate m adds).map Prod.fst).Nodup
  | [], _, h => h
  | kv :: adds, m, h => by
    simp only [dictUpdate, List.foldl_cons]
    exact nodupKeys_dictUpdate adds _ (nodupKeys_dictInsert m kv.1 kv.2 h)

theorem nodupKeys_primaryLoop (ql : List String) : ∀ (files : List GFile) count m,
    (m.map Prod.fst).Nodup → ((primaryLoop ql files count m).map Prod.fst).Nodup
  | [], _, _, h => h
  | f :: rest, count, m, h => by
    rw [primaryLoop]
    split
    · exact h
    · split
      · exact nodupKeys_primaryLoop ql rest count m h
      · exact nodupKeys_primaryLoop ql rest (count + 1) _ (nodupKeys_dictInsert m _ _ h)

theorem length_primaryLoop_le (ql : List String) : ∀ (files : List GFile) count m,
    (primaryLoop ql files count m).length ≤ m.length + (30 - count)
  | [], _, _ => by simp [primaryLoop]
  | f :: rest, count, m => by
    rw [primaryLoop]
    split
    · omega
    · split
      · exact length_primaryLoop_le ql rest count m
      · have h₁ := length_primaryLoop_le ql rest (count + 1)
          (dictInsert m f.id ⟨f.name, naturalsize f.size, f.mimeType, none, false⟩)
        have h₂ := length_dictInsert_le m f.id ⟨f.name, naturalsize f.size, f.mimeType, none, false⟩
        rename_i hcount _
        simp only [ge_iff_le, not_le] at hcount
        omega

theorem foldl_dictPop_eq_filter : ∀ (ids : List String) (m : List (String × FileEntry)),
    ids.foldl dictPop m = m.filter (fun p => decide (p.1 ∉ ids))
  | [], m => by simp
  | i :: ids, m => by
    rw [List.foldl_cons, foldl_dictPop_eq_filter ids (dictPop m i)]
    unfold dictPop
    rw [List.filter_filter]
    apply List.filter_congr
    intro p _
    by_cases h1 : p.1 = i <;> by_cases h2 : p.1 ∈ ids <;> simp [h1, h2]

theorem check_download_eq_filter (probeOk : String → Bool) (m : List (String × FileEntry)) :
    check_download probeOk m =
      m.filter (fun p => decide (p.1 ∉ sharedListOf probeOk m)) :=
  foldl_dictPop_eq_filter _ m

theorem mem_sharedListOf {probeOk : String → Bool} {m : List (String × FileEntry)} {a : String} :
    a ∈ sharedListOf probeOk m ↔
      ∃ p ∈ m, p.1 = a ∧ p.2.is_tgapi = false ∧ probeOk p.1 = false := by
  simp only [sharedListOf, List.mem_map, List.mem_filter, Bool.and_eq_true, Bool.not_eq_true']
  constructor
  · rintro ⟨p, ⟨hm, hf, hp⟩, rfl⟩
    exact ⟨p, hm, rfl, hf, hp⟩
  · rintro ⟨p, hm, rfl, hf, hp⟩
    exact ⟨p, ⟨hm, hf, hp⟩, rfl⟩

theorem keyInj {m : List (String × FileEntry)} (hnd : (m.map Prod.fst).Nodup)
    {p q : String × FileEntry} (hp : p ∈ m) (hq : q ∈ m) (h : p.1 = q.1) : p = q :=
  List.inj_on_of_nodup_map hnd hp hq h

theorem cd_primary_probed (probeOk : String → Bool) (m : List (String × FileEntry)) :
    ∀ p ∈ check_download probeOk m, p.2.is_tgapi = false → probeOk p.1 = true := by
  intro p hp htg
  rw [check_download_eq_filter, List.mem_filter, decide_eq_true_eq] at hp
  by_contra hfail
  exact hp.2 (mem_sharedListOf.mpr
    ⟨p, hp.1, rfl, htg, Bool.not_eq_true _ ▸ hfail⟩)

/-- C2: every Primary-origin (`is_tgapi = false`) entry of a success
response has passed a successful availability probe; and on a result map
with unique ids (as Python dicts guarantee), the availability filter
(a) keeps a Primary-origin entry only if its probe succeeded, (b) keeps
every Archive-origin (`is_tgapi = true`) entry unchanged, (c) introduces no
entry that was not in the input, and (d) never schedules a probe for an
Archive-origin id. -/
theorem c2_availability_filter :
    (∀ (env : SearchEnv) (tok : Option String) files tok',
      search env tok = (.success files, tok') →
      ∀ p ∈ files, p.2.is_tgapi = false → env.probeOk p.1 = true)
    ∧ (∀ (probeOk : String → Bool) (m : List (String × FileEntry)),
        (m.map Prod.fst).Nodup →
        (∀ p ∈ check_download probeOk m, p.2.is_tgapi = false → probeOk p.1 = true)
        ∧ (∀ p ∈ m, p.2.is_tgapi = true → p ∈ check_download probeOk m)
        ∧ (∀ p ∈ check_download probeOk m, p ∈ m)
        ∧ (∀ p ∈ m, p.2.is_tgapi = true → p.1 ∉ probedIds m)) := by
  constructor
  · intro env tok files tok' h p hpf htg
    cases hp : env.primary with
    | none => simp [search, hp] at h
    | some fs =>
      simp only [search, hp] at h
      split at h <;>
      · have hfiles := (SearchOutcome.success.inj (congrArg Prod.fst h)).symm
        subst hfiles
        have hpcd := (List.mem_insertionSort natR).mp hpf
        exact cd_primary_probed env.probeOk _ p hpcd htg
  · intro probeOk m hnd
    refine ⟨cd_primary_probed probeOk m, ?_, ?_, ?_⟩
    · intro p hp htg
      rw [check_download_eq_filter, List.mem_filter, decide_eq_true_eq]
      refine ⟨hp, fun hsh => ?_⟩
      rcases mem_sharedListOf.mp hsh with ⟨q, hq, hkey, hqtg, -⟩
      rw [keyInj hnd hq hp hkey] at hqtg
      rw [htg] at hqtg
      simp at hqtg
    · intro p hp
      rw [check_download_eq_filter] at hp
      exact List.mem_of_mem_filter hp
    · intro p hp htg hprobe
      simp only [probedIds, List.mem_map, List.mem_filter, Bool.not_eq_true'] at hprobe
      rcases hprobe with ⟨q, ⟨hq, hqtg⟩, hkey⟩
      rw [keyInj hnd hq hp hkey] at hqtg
      rw [htg] at hqtg
      simp at hqtg

/-- Witness for C2 at a concrete map: the archive entry survives the filter
even though its id would fail a probe. -/
theorem c2_availability_filter_witness :
    ("b", (⟨"n2", "1", "m", some "u", true⟩ : FileEntry)) ∈
      check_download (fun _ => false)
        [("a", ⟨"n1", "1", "m", none, false⟩), ("b", ⟨"n2", "1", "m", some "u", true⟩)] :=
  ((c2_availability_filter.2 (fun _ => false)
    [("a", ⟨"n1", "1", "m", none, false⟩), ("b", ⟨"n2", "1", "m", some "u", true⟩)]
    (by decide)).2.1)
    ("b", ⟨"n2", "1", "m", some "u", true⟩) (by decide) rfl

/-- C3: when the archive search gets a 401 (`Unauthorized`) response, the
client drops the cached token, re-acquires one (`tgTokenFetch 2`), and
retries the whole operation exactly once; when the retry gets a second 401,
the call is terminal: it returns an empty result with the token left
invalidated, having issued exactly 2 search requests in total. -/
theorem c3_auth_retry_once (env : SearchEnv) (t0 t2 : String)
    (hcfg : env.tgConfigured = true)
    (h1 : env.tgResponse 1 = .failure (some "Unauthorized"))
    (h2 : env.tgResponse 2 = .failure (some "Unauthorized"))
    (htok : env.tgTokenFetch 2 = some t2) :
    fetch_tgarchive_files env (some t0) 1 = ⟨[], none, 2⟩ := by
  simp [fetch_tgarchive_files, fetch_go, hcfg, h1, h2, htok]

/-- Concrete archive environment whose every search attempt is answered 401. -/
def envAlways401 : SearchEnv where
  rawQuery := "q"
  primary := some []
  probeOk := fun _ => true
  tgConfigured := true
  tgTokenFetch := fun _ => some "fresh"
  tgResponse := fun _ => .failure (some "Unauthorized")

/-- Witness for C3: with both attempts answered 401, the call returns the
empty result after exactly two requests. -/
theorem c3_auth_retry_once_witness :
    fetch_tgarchive_files envAlways401 (some "stale") 1 = ⟨[], none, 2⟩ :=
  c3_auth_retry_once envAlways401 "stale" "fresh" rfl rfl rfl rfl

/-- C10: when the archive search endpoint is unconfigured, or no token can
be acquired, `fetch_tgarchive_files` returns an empty mapping without
issuing any search request (`requests = 0`), and in either situation the
overall query still succeeds with the primary-store results unchanged (the
empty archive contribution is never merged). -/
theorem c10_archive_unavailable (env : SearchEnv) (tok : Option String) (rc : Nat) :
    (env.tgConfigured = false → fetch_tgarchive_files env tok rc = ⟨[], tok, 0⟩)
    ∧ (tok = none → env.tgTokenFetch rc = none →
        fetch_tgarchive_files env tok rc = ⟨[], none, 0⟩)
    ∧ (∀ fs, env.primary = some fs → env.tgConfigured = false →
        search env tok = (.success (natsortByName (check_download env.probeOk
          (primaryLoop (querySplit (stripQuery env.rawQuery)) fs 0 []))), tok))
    ∧ (∀ fs, env.primary = some fs → tok = none → env.tgTokenFetch 1 = none →
        search env tok = (.success (natsortByName (check_download env.probeOk
          (primaryLoop (querySplit (stripQuery env.rawQuery)) fs 0 []))), none)) := by
  refine ⟨?_, ?_, ?_, ?_⟩
  · intro hcfg
    simp [fetch_tgarchive_files, fetch_go, hcfg]
  · intro htok hfetch
    subst htok
    simp only [fetch_tgarchive_files, fetch_go, hfetch]
    split <;> rfl
  · intro fs hp hcfg
    have hfetch : fetch_tgarchive_files env tok 1 = ⟨[], tok, 0⟩ := by
      simp [fetch_tgarchive_files, fetch_go, hcfg]
    simp only [search, hp, hfetch]
    split <;> rfl
  · intro fs hp htok hfetch
    subst htok
    have hfetch' : fetch_tgarchive_files env none 1 = ⟨[], none, 0⟩ := by
      simp [fetch_tgarchive_files, fetch_go, hfetch]
    simp only [search, hp, hfetch']
    split <;> rfl

/-- Concrete environment: archive endpoint unconfigured, one primary file. -/
def envNoArchive : SearchEnv where
  rawQuery := "a"
  primary := some [⟨"i1", "abc", "video/mp4", 7⟩]
  probeOk := fun _ => true
  tgConfigured := false
  tgTokenFetch := fun _ => none
  tgResponse := fun _ => .transportError

/-- Witness for C10: with the archive unconfigured the query succeeds with
exactly the primary-store results. -/
theorem c10_archive_unavailable_witness :
    search envNoArchive none = (.success (natsortByName (check_download envNoArchive.probeOk
      (primaryLoop (querySplit (stripQuery envNoArchive.rawQuery))
        [⟨"i1", "abc", "video/mp4", 7⟩] 0 []))), none) :=
  (c10_archive_unavailable envNoArchive none 1).2.2.1
    [⟨"i1", "abc", "video/mp4", 7⟩] rfl rfl

/-- C8 counterexample: for the empty query the token list produced by
`re.split(' ', ...)` is `['']` — a one-element list holding the empty
string — not the empty list the claim states; likewise for a query of only
disallowed characters. -/
theorem c8_counterexample :
    querySplit (stripQuery "") = [""] ∧ querySplit (stripQuery "") ≠ []
    ∧ querySplit (stripQuery "!?!") = [""] ∧ querySplit (stripQuery "!?!") ≠ [] := by
  decide

/-- C8 amended: for every input string that is empty or contains only
characters outside `[A-Za-z0-9-_ ]`, the resulting token list is `[""]`
(a single empty token, which constrains nothing), and such a query still
proceeds without error: the handler returns a success envelope whenever the
primary listing call does not raise. -/
theorem c8_empty_query_tokens (q : String)
    (h : q = "" ∨ ∀ c ∈ q.toList, allowedChar c = false) :
    querySplit (stripQuery q) = [""]
    ∧ (∀ env tok fs, env.primary = some fs →
        ∃ files tok', search env tok = (.success files, tok')) := by
  constructor
  · have hstrip : stripQuery q = "" := by
      rcases h with rfl | h
      · rfl
      · have hnil : q.toList.filter allowedChar = [] := by
          rw [List.filter_eq_nil_iff]
          intro c hc
          simp [h c hc]
        show String.mk (q.toList.filter allowedChar) = ""
        rw [hnil]
    rw [hstrip]
    rfl
  · intro env tok fs hp
    simp only [search, hp]
    split
    · exact ⟨_, _, rfl⟩
    · exact ⟨_, _, rfl⟩

/-- Witness for C8's amended statement at the all-garbage query `"!?!"`. -/
theorem c8_empty_query_tokens_witness :
    querySplit (stripQuery "!?!") = [""] :=
  (c8_empty_query_tokens "!?!" (Or.inr (by decide))).1

theorem search_success_shape (env : SearchEnv) (tok : Option String)
    (files : List (String × FileEntry)) (tok' : Option String)
    (h : search env tok = (.success files, tok')) :
    ∃ m, files = natsortByName m := by
  cases hp : env.primary with
  | none => simp [search, hp] at h
  | some fs =>
    simp only [search, hp] at h
    split at h <;>
      exact ⟨_, (SearchOutcome.success.inj (congrArg Prod.fst h)).symm⟩

/-- C9: the `files` mapping of every success response is ordered ascending
by natural sort (numeric-aware lexicographic order) on the `name` field;
`natsortByName` is a stable permutation (sorted sublists of the input stay
sublists of the output); and on names `["file10", "file2", "file1"]` the
output order is `["file1", "file2", "file10"]`. -/
theorem c9_natural_sort_order (env : SearchEnv) (tok tok' : Option String)
    (files : List (String × FileEntry))
    (h : search env tok = (.success files, tok')) :
    files.Pairwise natR
    ∧ (∀ l : List (String × FileEntry), (natsortByName l).Perm l)
    ∧ (∀ l c : List (String × FileEntry), c.Pairwise natR → c.Sublist l →
        c.Sublist (natsortByName l))
    ∧ natsortByName
        [("a", ⟨"file10", "9", "m", none, false⟩),
         ("b", ⟨"file2", "9", "m", none, false⟩),
         ("c", ⟨"file1", "9", "m", none, false⟩)]
      = [("c", ⟨"file1", "9", "m", none, false⟩),
         ("b", ⟨"file2", "9", "m", none, false⟩),
         ("a", ⟨"file10", "9", "m", none, false⟩)] := by
  refine ⟨?_, ?_, ?_, by decide⟩
  · obtain ⟨m, rfl⟩ := search_success_shape env tok files tok' h
    exact List.sorted_insertionSort natR m
  · intro l
    exact List.perm_insertionSort natR l
  · intro l c hc hsub
    exact List.sublist_insertionSort hc hsub

/-- Concrete environment for the C9 witness: the primary store returns the
files named `file10`, `file2`, `file1` (in that order). -/
def envNatSort : SearchEnv where
  rawQuery := "file"
  primary := some [⟨"a", "file10", "video/mp4", 9⟩, ⟨"b", "file2", "video/mp4", 9⟩,
    ⟨"c", "file1", "video/mp4", 9⟩]
  probeOk := fun _ => true
  tgConfigured := false
  tgTokenFetch := fun _ => none
  tgResponse := fun _ => .transportError

/-- Witness for C9: the response for `envNatSort` is sorted under the
natural order. -/
theorem c9_natural_sort_order_witness :
    ([("c", ⟨"file1", "9", "video/mp4", none, false⟩),
      ("b", ⟨"file2", "9", "video/mp4", none, false⟩),
      ("a", ⟨"file10", "9", "video/mp4", none, false⟩)] :
        List (String × FileEntry)).Pairwise natR :=
  (c9_natural_sort_order envNatSort none none _ (by decide)).1

/-- C7 counterexample: for the query `"Movie Name 1080"` the detected
quality is `"1080"` and the split token list is `["Movie", "Name", "1080"]`,
but the containment post-filter receives the full token list, so a file
named `"Movie Name"` — which contains every non-quality token — fails the
`contains` check and is rejected by the result loop.  The quality token is
therefore required to appear in accepted file names, contrary to the claim. -/
theorem c7_counterexample :
    detectQuality (stripQuery "Movie Name 1080") = some "1080"
    ∧ querySplit (stripQuery "Movie Name 1080") = ["Movie", "Name", "1080"]
    ∧ contains (querySplit (stripQuery "Movie Name 1080")) (strLower "Movie Name") = false
    ∧ primaryLoop (querySplit (stripQuery "Movie Name 1080"))
        [⟨"id1", "Movie Name", "video/mp4", 5⟩] 0 [] = [] := by
  decide

/-- C7 amended: for the query `"Movie Name 1080"`, normalization yields the
token list `["Movie", "Name", "1080"]` with detected quality `"1080"`; the
quality token is excluded from the primary-store filter clauses (which are
exactly `["Movie", "Name"]`), but it is not excluded from `contains`
matching: an accepted file name must contain `"movie"`, `"name"` and
`"1080"` alike. -/
theorem c7_quality_token (name : String) :
    detectQuality (stripQuery "Movie Name 1080") = some "1080"
    ∧ querySplit (stripQuery "Movie Name 1080") = ["Movie", "Name", "1080"]
    ∧ gdriveClauses (detectQuality (stripQuery "Movie Name 1080"))
        (querySplit (stripQuery "Movie Name 1080")) = ["Movie", "Name"]
    ∧ contains (querySplit (stripQuery "Movie Name 1080")) name
        = (strContains name "movie" && strContains name "name" && strContains name "1080") := by
  refine ⟨by decide, by decide, by decide, ?_⟩
  rw [show querySplit (stripQuery "Movie Name 1080") = ["Movie", "Name", "1080"] from by decide]
  simp only [contains, List.all_cons, List.all_nil]
  rw [show strLower "Movie" = "movie" from by decide,
    show strLower "Name" = "name" from by decide,
    show strLower "1080" = "1080" from by decide]
  cases strContains name "movie" <;> cases strContains name "name" <;>
    cases strContains name "1080" <;> rfl

/-- Concrete archive environment for C5: a well-formed envelope with three
hits — a parseable hit (id 1), a hit whose description blob fails to parse,
and another parseable hit (id 2). -/
def envBadHit : SearchEnv where
  rawQuery := "q"
  primary := some []
  probeOk := fun _ => true
  tgConfigured := true
  tgTokenFetch := fun _ => some "t"
  tgResponse := fun _ => .ok (some
    [⟨some ⟨some 1, none, "n1", 4, "m", "u1"⟩⟩,
     ⟨none⟩,
     ⟨some ⟨some 2, none, "n2", 4, "m", "u2"⟩⟩])

/-- C5 counterexample: with a well-formed envelope, a parse failure on the
second hit's description blob does not merely skip that hit — the third,
perfectly parseable hit is dropped too, because the `JSONDecodeError` is
caught only at function level and aborts the loop.  The call returns only
the first hit. -/
theorem c5_counterexample :
    fetch_tgarchive_files envBadHit (some "t") 1
      = ⟨[("1", ⟨"n1", "4", "m", some "u1", true⟩)], some "t", 1⟩
    ∧ ("2", (⟨"n2", "4", "m", some "u2", true⟩ : FileEntry)) ∉
        (fetch_tgarchive_files envBadHit (some "t") 1).files := by
  decide

/-- C5 amended: a parse failure on a hit's description blob keeps the hits
already processed but abandons that hit and every later hit of the batch
(the call itself still returns, with the partial dict); a parsed hit
missing both id fields is skipped individually; a malformed response
envelope is caught too and yields an empty result for the call. -/
theorem c5_hit_parse_failure :
    (∀ (pre post : List TgHit) (bad : TgHit) acc,
      (∀ x ∈ pre, x.description.isSome = true) → bad.description = none →
      processHits (pre ++ bad :: post) acc = ((processHits pre acc).1, true))
    ∧ (∀ (meta : TgMeta) rest acc, meta.id = none → meta.altId = none →
        processHits (⟨some meta⟩ :: rest) acc = processHits rest acc)
    ∧ (∀ (env : SearchEnv) (t : String), env.tgConfigured = true →
        env.tgResponse 1 = .ok none →
        fetch_tgarchive_files env (some t) 1 = ⟨[], some t, 1⟩) := by
  refine ⟨?_, ?_, ?_⟩
  · intro pre
    induction pre with
    | nil =>
      intro post bad acc _ hbad
      simp [processHits, hbad]
    | cons h rest ih =>
      intro post bad acc hsome hbad
      have hh : h.description.isSome = true := hsome h (List.mem_cons_self h rest)
      rcases hdesc : h.description with - | m
      · rw [hdesc] at hh
        simp at hh
      · have hrest : ∀ x ∈ rest, x.description.isSome = true :=
          fun x hx => hsome x (List.mem_cons_of_mem h hx)
        cases hid : (match m.id with | some i => some i | none => m.altId) with
        | none =>
          simp only [List.cons_append, processHits, hdesc, hid]
          exact ih post bad acc hrest hbad
        | some fid =>
          simp only [List.cons_append, processHits, hdesc, hid]
          exact ih post bad _ hrest hbad
  · intro meta rest acc hid halt
    simp [processHits, hid, halt]
  · intro env t hcfg hresp
    simp [fetch_tgarchive_files, fetch_go, hcfg, hresp]

/-- Witness for C5's amended statement on the concrete batch of `envBadHit`:
the prefix before the bad hit is kept, everything after is dropped. -/
theorem c5_hit_parse_failure_witness :
    processHits
      [⟨some ⟨some 1, none, "n1", 4, "m", "u1"⟩⟩, ⟨none⟩,
       ⟨some ⟨some 2, none, "n2", 4, "m", "u2"⟩⟩] []
      = ([("1", ⟨"n1", "4", "m", some "u1", true⟩)], true) := by
  have h := c5_hit_parse_failure.1 [⟨some ⟨some 1, none, "n1", 4, "m", "u1"⟩⟩]
    [⟨some ⟨some 2, none, "n2", 4, "m", "u2"⟩⟩] ⟨none⟩ [] (by decide) rfl
  rw [List.singleton_append] at h
  rw [h]
  decide

/-- Concrete environment for C6: the primary listing succeeds (empty) and
every archive search request raises a transport exception. -/
def envArchiveDown : SearchEnv where
  rawQuery := "q"
  primary := some []
  probeOk := fun _ => true
  tgConfigured := true
  tgTokenFetch := fun _ => some "t"
  tgResponse := fun _ => .transportError

/-- C6 counterexample: a transport error while talking to the archive
backend is not surfaced as a query-level failure — the handler still
returns a success envelope (with the primary results), because
`fetch_tgarchive_files` catches `RequestException` and returns its dict. -/
theorem c6_counterexample :
    search envArchiveDown none = (.success [], some "t")
    ∧ (search envArchiveDown none).1 ≠ SearchOutcome.error := by
  decide

/-- C6 amended: a transport error from the primary store propagates to the
handler's `except` clause and is surfaced as an error-status response; a
transport error from the archive search is swallowed inside
`fetch_tgarchive_files` — the call returns an empty contribution after a
single request (no retry) and the query succeeds with the primary-store
results alone. -/
theorem c6_transport_errors (env : SearchEnv) (tok : Option String) :
    (env.primary = none → search env tok = (.error, tok))
    ∧ (∀ t, env.tgConfigured = true → env.tgResponse 1 = .transportError →
        fetch_tgarchive_files env (some t) 1 = ⟨[], some t, 1⟩)
    ∧ (∀ t fs, env.primary = some fs → env.tgConfigured = true →
        env.tgResponse 1 = .transportError →
        search env (some t) = (.success (natsortByName (check_download env.probeOk
          (primaryLoop (querySplit (stripQuery env.rawQuery)) fs 0 []))), some t)) := by
  refine ⟨?_, ?_, ?_⟩
  · intro hp
    simp [search, hp]
  · intro t hcfg hresp
    simp [fetch_tgarchive_files, fetch_go, hcfg, hresp]
  · intro t fs hp hcfg hresp
    have hfetch : fetch_tgarchive_files env (some t) 1 = ⟨[], some t, 1⟩ := by
      simp [fetch_tgarchive_files, fetch_go, hcfg, hresp]
    simp only [search, hp, hfetch]
    split <;> simp

/-- Witness for C6's amended statement: the archive-transport-error query of
`envArchiveDown` succeeds with the (empty) primary results. -/
theorem c6_transport_errors_witness :
    search envArchiveDown (some "t") = (.success (natsortByName (check_download
      envArchiveDown.probeOk (primaryLoop (querySplit (stripQuery envArchiveDown.rawQuery))
        [] 0 []))), some "t") :=
  (c6_transport_errors envArchiveDown (some "t")).2.2 "t" [] rfl rfl rfl

theorem length_natsortByName (l : List (String × FileEntry)) :
    (natsortByName l).length = l.length :=
  List.length_insertionSort natR l

theorem length_check_download_le (probeOk : String → Bool) (m : List (String × FileEntry)) :
    (check_download probeOk m).length ≤ m.length := by
  rw [check_download_eq_filter]
  exact List.length_filter_le _ _

theorem check_download_of_all_ok (probeOk : String → Bool) (m : List (String × FileEntry))
    (hall : ∀ p ∈ m, probeOk p.1 = true) :
    check_download probeOk m = m := by
  unfold check_download
  have hsh : sharedListOf probeOk m = [] := by
    unfold sharedListOf
    have : m.filter (fun p => !p.2.is_tgapi && !probeOk p.1) = [] := by
      rw [List.filter_eq_nil_iff]
      intro p hp
      rw [hall p hp]
      simp
    rw [this, List.map_nil]
  rw [hsh]
  rfl

/-- The pipeline order asserted by the claim, following the spec's words:
availability filtering of the primary candidates happens first, and archive
results are merged only when the verified primary count is below the
coverage threshold 10. -/
def specSearch (env : SearchEnv) (token : Option String) : SearchOutcome × Option String :=
  match env.primary with
  | none => (.error, token)
  | some files =>
    let query_list := querySplit (stripQuery env.rawQuery)
    let verified := check_download env.probeOk (primaryLoop query_list files 0 [])
    let (final, token') :=
      if verified.length < 10 then
        let r := fetch_tgarchive_files env token 1
        (if r.files.isEmpty then verified else dictUpdate verified r.files, r.token)
      else (verified, token)
    (.success (natsortByName final), token')

/-- Ten primary candidates matching the query `"x"`, with ids `i0` … `i9`. -/
def fsTen : List GFile :=
  (List.range 10).map (fun i => ⟨"i" ++ toString i, "x" ++ toString i, "video/mp4", 3⟩)

/-- Concrete environment for the C4 counterexample: ten primary candidates
of which only five survive their probes, and a non-empty archive response. -/
def envMergeOrder : SearchEnv where
  rawQuery := "x"
  primary := some fsTen
  probeOk := fun s => ["i0", "i1", "i2", "i3", "i4"].contains s
  tgConfigured := true
  tgTokenFetch := fun _ => some "t"
  tgResponse := fun _ => .ok (some [⟨some ⟨some 99, none, "z", 3, "m", "u"⟩⟩])

/-- C4 counterexample: the code merges before filtering and gates the merge
on the unverified candidate count.  With ten candidates (five of which fail
their probes) and a non-empty archive response, the code returns the five
surviving primary entries and ignores the archive, while the claimed
filter-then-merge pipeline (`specSearch`) would see only five verified
entries and merge the archive hit, returning six. -/
theorem c4_counterexample :
    search envMergeOrder (some "t") ≠ specSearch envMergeOrder (some "t")
    ∧ outFilesLen (search envMergeOrder (some "t")).1 = 5
    ∧ outFilesLen (specSearch envMergeOrder (some "t")).1 = 6 := by
  decide

/-- C4 amended: merging happens before availability filtering and is gated
on the unverified primary candidate count; nevertheless, given 12 primary
candidates that all pass their probes and any archive response, the final
set equals exactly those 12 primary results, with the archive contribution
ignored. -/
theorem c4_threshold_unverified (env : SearchEnv) (tok : Option String) (fs : List GFile)
    (hp : env.primary = some fs)
    (h12 : (primaryLoop (querySplit (stripQuery env.rawQuery)) fs 0 []).length = 12)
    (hall : ∀ p ∈ primaryLoop (querySplit (stripQuery env.rawQuery)) fs 0 [],
      env.probeOk p.1 = true) :
    search env tok = (.success (natsortByName
      (primaryLoop (querySplit (stripQuery env.rawQuery)) fs 0 [])), tok) := by
  have hnotlt : ¬ (primaryLoop (querySplit (stripQuery env.rawQuery)) fs 0 []).length < 10 := by
    rw [h12]
    omega
  simp only [search, hp, if_neg hnotlt]
  rw [check_download_of_all_ok env.probeOk _ hall]

/-- Twelve primary candidates matching the query `"a"`. -/
def fsTwelve : List GFile :=
  (List.range 12).map (fun i => ⟨"i" ++ toString i, "a" ++ toString i, "video/mp4", 3⟩)

/-- Concrete environment for the C4 witness: twelve verified primary
candidates and a non-empty archive response. -/
def envTwelve : SearchEnv where
  rawQuery := "a"
  primary := some fsTwelve
  probeOk := fun _ => true
  tgConfigured := true
  tgTokenFetch := fun _ => some "t"
  tgResponse := fun _ => .ok (some [⟨some ⟨some 99, none, "z", 3, "m", "u"⟩⟩])

/-- Witness for C4's amended statement: with 12 verified primary results and
a non-empty archive response, the response is exactly those 12 primary
results. -/
theorem c4_threshold_unverified_witness :
    search envTwelve none = (.success (natsortByName
      (primaryLoop (querySplit (stripQuery envTwelve.rawQuery)) fsTwelve 0 [])), none) :=
  c4_threshold_unverified envTwelve none fsTwelve rfl (by decide) (by decide)

/-- Concrete environment for the C1 counterexample: no primary results and
an archive response carrying 31 parseable hits. -/
def envManyArchive : SearchEnv where
  rawQuery := "q"
  primary := some []
  probeOk := fun _ => true
  tgConfigured := true
  tgTokenFetch := fun _ => some "t"
  tgResponse := fun _ => .ok (some ((List.range 31).map (fun i =>
    ⟨some ⟨some (Int.ofNat i), none, "f" ++ toString i, 2, "m", "u" ++ toString i⟩⟩)))

/-- C1 counterexample: the merge of archive results is not capped, so with
no primary results and 31 archive hits the returned `files` mapping has 31
entries — more than 30. -/
theorem c1_counterexample :
    outFilesLen (search envManyArchive none).1 = 31
    ∧ ¬ outFilesLen (search envManyArchive none).1 ≤ 30 := by
  decide

/-- C1 amended: only the primary candidate loop is capped at
`MAX_RESULTS = 30`.  When no archive merge happens the response has at most
30 entries; when archive results are merged (which requires fewer than 10
primary candidates) the response is bounded only by 9 plus the size of the
uncapped archive contribution, and can therefore exceed 30. -/
theorem c1_result_count_bound (env : SearchEnv) (tok : Option String) :
    outFilesLen (search env tok).1 ≤
      max 30 (9 + (fetch_tgarchive_files env tok 1).files.length) := by
  cases hp : env.primary with
  | none => simp [search, hp, outFilesLen]
  | some fs =>
    have hmle : (primaryLoop (querySplit (stripQuery env.rawQuery)) fs 0 []).length ≤ 30 := by
      have h := length_primaryLoop_le (querySplit (stripQuery env.rawQuery)) fs 0 []
      simpa using h
    simp only [search, hp]
    split
    · rename_i hlen
      split
      · rename_i hempty
        simp only [outFilesLen, length_natsortByName]
        have := length_check_download_le env.probeOk
          (primaryLoop (querySplit (stripQuery env.rawQuery)) fs 0 [])
        omega
      · rename_i hempty
        simp only [outFilesLen, length_natsortByName]
        have h₁ := length_check_download_le env.probeOk
          (dictUpdate (primaryLoop (querySplit (stripQuery env.rawQuery)) fs 0 [])
            (fetch_tgarchive_files env tok 1).files)
        have h₂ := length_dictUpdate_le (fetch_tgarchive_files env tok 1).files
          (primaryLoop (querySplit (stripQuery env.rawQuery)) fs 0 [])
        omega
    · simp only [outFilesLen, length_natsortByName]
      have := length_check_download_le env.probeOk
        (primaryLoop (querySplit (stripQuery env.rawQuery)) fs 0 [])
      omega

example : stripQuery "Movie Name 1080!" = "Movie Name 1080" := by decide
example : querySplit "Movie Name 1080" = ["Movie", "Name", "1080"] := by decide
example : querySplit "" = [""] := by decide
example : detectQuality "Movie Name 1080" = some "1080" := by decide
example : gdriveClauses (some "1080") ["Movie", "Name", "1080"] = ["Movie", "Name"] := by decide
example : contains ["Movie", "Name", "1080"] "movie name" = false := by decide
example : natKey "file10" = [.inr ['f', 'i', 'l', 'e'], .inl 10] := by decide
example : natsortByName [("a", ⟨"file10", "0", "m", none, false⟩),
    ("b", ⟨"file2", "0", "m", none, false⟩), ("c", ⟨"file1", "0", "m", none, false⟩)]
  = [("c", ⟨"file1", "0", "m", none, false⟩), ("b", ⟨"file2", "0", "m", none, false⟩),
     ("a", ⟨"file10", "0", "m", none, false⟩)] := by decide
